import Mathlib

/-!
Shallow embedding of the tool functions of the MCP math server
(src/mcp_math_server/server.py) and proofs about them.

Modelling conventions: Python floats are modelled as exact rationals on
the input side and exact reals where the computed value is
transcendental; Python integers are modelled as Int. Each tool returns
a structured result in place of the formatted string the server
produces: Res.ok carries the computed value and Res.domainError carries
the error message that the tool returns as ordinary data.
-/

namespace McpMathServer

/-- Result envelope of a tool call: either a computed value or the
domain-error message the tool returns as data. -/
inductive Res (α : Type) where
  | ok (value : α)
  | domainError (msg : String)
  deriving DecidableEq

/-- Whether a tool result is a domain error. -/
def Res.isDomainError {α : Type} : Res α → Bool
  | .ok _ => false
  | .domainError _ => true

def divideErrorMsg : String := "Error: Division by zero is not allowed"

def logErrorMsgX : String := "Error: Logarithm requires a positive number"

def logErrorMsgBase : String := "Error: Logarithm base must be positive and not equal to 1"

def moduloErrorMsg : String := "Error: Modulo by zero is not allowed"

def factorialErrorMsg : String := "Error: Factorial is only defined for non-negative integers"

/-- The divide tool: checks the divisor against zero, then returns the
quotient; float division modelled exactly over the rationals. -/
def divide (a b : ℚ) : Res ℚ :=
  if b = 0 then .domainError divideErrorMsg
  else .ok (a / b)

/-- The modulo tool: checks the divisor against zero, then returns the
Python float remainder. Python percent is the floored remainder (sign
follows the divisor), modelled exactly over the rationals as
a - b * floor (a / b). -/
def modulo (a b : ℚ) : Res ℚ :=
  if b = 0 then .domainError moduloErrorMsg
  else .ok (a - b * ⌊a / b⌋)

/-- The factorial tool: rejects negative n, otherwise math.factorial n,
exact over arbitrary-precision integers. -/
def factorial (n : ℤ) : Res ℤ :=
  if n < 0 then .domainError factorialErrorMsg
  else .ok ((Nat.factorial n.toNat : ℤ))

/-- The gcd tool: math.gcd a b, the non-negative greatest common
divisor; the tool body has no error branch. -/
def gcd (a b : ℤ) : Res ℤ := .ok ((Int.gcd a b : ℤ))

/-- The lcm tool: math.lcm a b, the non-negative least common multiple;
the tool body has no error branch. -/
def lcm (a b : ℤ) : Res ℤ := .ok ((Int.lcm a b : ℤ))

/-- The is_even tool: Python n % 2 == 0, with Python percent on int
modelled by Int.fmod (floored remainder); true stands for the report
that n is even, false for the report that n is odd. -/
def is_even (n : ℤ) : Res Bool :=
  .ok (decide (Int.fmod n 2 = 0))

/-- Outcome of the power tool. Python base ** exponent on floats either
returns a float (modelled as the exact real power), returns a complex
number (negative base with non-integral exponent), or raises
ZeroDivisionError (zero base with negative exponent); the tool body
does not catch the raise, so it escapes as an unhandled fault rather
than producing any result string. -/
inductive PowResult where
  | ok (value : ℝ)
  | okComplex (value : ℂ)
  | zeroDivisionError

/-- The power tool: base ** exponent on Python floats, modelled over
the rationals (every float value is rational); the returned float is
modelled as the exact real power and the returned complex number as
the principal complex power. A rational exponent is integral exactly
when its denominator is 1, matching the integrality test Python
applies to the float exponent. -/
noncomputable def power (base exponent : ℚ) : PowResult :=
  if base = 0 ∧ exponent < 0 then .zeroDivisionError
  else if base < 0 ∧ exponent.den ≠ 1 then
    .okComplex ((base : ℂ) ^ (exponent : ℂ))
  else .ok ((base : ℝ) ^ (exponent : ℝ))

/-- The logarithm tool: the source checks x ≤ 0, then base ≤ 0 or
base == 1, then returns math.log x base, which is log x / log base;
floats modelled as exact reals. -/
noncomputable def logarithm (x base : ℝ) : Res ℝ :=
  if x ≤ 0 then .domainError logErrorMsgX
  else if base ≤ 0 ∨ base = 1 then .domainError logErrorMsgBase
  else .ok (Real.log x / Real.log base)

/-- The logarithm tool with the base argument omitted: the Python
default value is math.e, modelled as the exact real number e. -/
noncomputable def logarithm_default (x : ℝ) : Res ℝ :=
  logarithm x (Real.exp 1)

/-- Result of the is_prime tool, mirroring its four return strings:
the domain error for n below 2, the prime report, the bare not-prime
report of the even branch (which names no divisor), and the not-prime
report of the trial-division loop carrying the divisor it found. -/
inductive PrimeResult where
  | domainError (n : ℤ)
  | prime (n : ℤ)
  | notPrime (n : ℤ)
  | notPrimeDivisible (n : ℤ) (d : ℕ)
  deriving DecidableEq

/-- Python range start stop step, for positive step. -/
def pyRange (start stop step : ℕ) : List ℕ :=
  List.range' start ((stop - start + step - 1) / step) step

/-- Auxiliary for isqrt: the largest k at most the second argument
whose square is at most n. -/
def isqrtGo (n : ℕ) : ℕ → ℕ
  | 0 => 0
  | k + 1 => if (k + 1) * (k + 1) ≤ n then k + 1 else isqrtGo n k

/-- The integer square root, as a structurally recursive function that
the kernel can evaluate; proved equal to Nat.sqrt below. -/
def isqrt (n : ℕ) : ℕ := isqrtGo n n

/-- The trial-division loop of is_prime on m: the first odd i with
3 ≤ i ≤ isqrt m that divides m, if any. The source computes the bound
as int of the float square root of n, modelled as the exact integer
square root; the two agree on every n below 2 to the 52, where the
float square root is exact enough. -/
def oddTrial (m : ℕ) : Option ℕ :=
  (pyRange 3 (isqrt m + 1) 2).find? (fun i => decide (m % i = 0))

/-- The is_prime tool: the trial-division primality check of the
source, with Python percent on int modelled by Int.fmod. -/
def is_prime (n : ℤ) : PrimeResult :=
  if n < 2 then .domainError n
  else if n = 2 then .prime n
  else if Int.fmod n 2 = 0 then .notPrime n
  else
    match oddTrial n.toNat with
    | some i => .notPrimeDivisible n i
    | none => .prime n

/-- The boolean verdict carried by an is_prime result: true exactly on
the prime report. -/
def PrimeResult.verdict : PrimeResult → Bool
  | .prime _ => true
  | _ => false

/-! ### Helper lemmas -/

lemma fmod_two_eq_zero_iff (n : ℤ) : Int.fmod n 2 = 0 ↔ (2 : ℤ) ∣ n := by
  rw [Int.fmod_eq_emod n (by norm_num)]
  exact (Int.dvd_iff_emod_eq_zero).symm

/-! ### Claim theorems: divide, factorial, gcd, lcm, is_even -/

/-- Claim C3: divide with divisor 0 returns the division-by-zero domain
error for every numerator, and for every nonzero divisor it returns the
exact quotient a / b. -/
theorem divide_spec :
    (∀ a b : ℚ, b = 0 → divide a b = Res.domainError divideErrorMsg) ∧
    (∀ a b : ℚ, b ≠ 0 → divide a b = Res.ok (a / b)) := by
  constructor <;> intro a b h <;> simp [divide, h]

/-- Witness for claim C3 at concrete inputs. -/
theorem divide_spec_holds :
    divide 1 0 = Res.domainError divideErrorMsg ∧ divide 1 2 = Res.ok (1 / 2) :=
  ⟨divide_spec.1 1 0 rfl, divide_spec.2 1 2 (by norm_num)⟩

/-- Claim C7: factorial returns a domain error exactly for negative n;
factorial 0 is 1, factorial 5 is 120, and the result is monotone in n
over the non-negative integers. -/
theorem factorial_spec :
    (∀ n : ℤ, (factorial n).isDomainError = true ↔ n < 0) ∧
    factorial 0 = Res.ok 1 ∧
    factorial 5 = Res.ok 120 ∧
    (∀ n : ℤ, 0 ≤ n →
      ∃ v w : ℤ, factorial n = Res.ok v ∧ factorial (n + 1) = Res.ok w ∧ v ≤ w) := by
  refine ⟨fun n => ?_, by decide, by decide, fun n hn => ?_⟩
  · unfold factorial
    split_ifs with h <;> simp [Res.isDomainError, h]
  · rw [factorial, if_neg (by omega), factorial, if_neg (by omega)]
    refine ⟨_, _, rfl, rfl, ?_⟩
    have ht : (n + 1).toNat = n.toNat + 1 := by omega
    rw [ht]
    exact_mod_cast Nat.factorial_le (Nat.le_succ n.toNat)

/-- Witness for claim C7 at a concrete input. -/
theorem factorial_spec_holds :
    ∃ v w : ℤ, factorial 3 = Res.ok v ∧ factorial (3 + 1) = Res.ok w ∧ v ≤ w :=
  factorial_spec.2.2.2 3 (by norm_num)

/-- Claim C8: gcd and lcm never produce a domain error and their
results are non-negative; gcd a 0 is the absolute value of a;
gcd 48 18 is 6 and lcm 4 6 is 12. -/
theorem gcd_lcm_spec :
    (∀ a b : ℤ, ∃ v : ℤ, gcd a b = Res.ok v ∧ 0 ≤ v) ∧
    (∀ a b : ℤ, ∃ v : ℤ, lcm a b = Res.ok v ∧ 0 ≤ v) ∧
    (∀ a : ℤ, gcd a 0 = Res.ok |a|) ∧
    gcd 48 18 = Res.ok 6 ∧
    lcm 4 6 = Res.ok 12 := by
  refine ⟨fun a b => ⟨_, rfl, Int.natCast_nonneg _⟩,
    fun a b => ⟨_, rfl, Int.natCast_nonneg _⟩, fun a => ?_, by decide, by decide⟩
  rw [gcd, Int.gcd_zero_right, Int.abs_eq_natAbs]

/-- Claim C9: is_even reports even exactly when n is divisible by 2 and
odd otherwise, for every integer n including negative ones, and it
never fails. -/
theorem is_even_spec :
    ∀ n : ℤ, (is_even n = Res.ok true ↔ (2 : ℤ) ∣ n) ∧
      (is_even n = Res.ok false ↔ ¬(2 : ℤ) ∣ n) := by
  intro n
  have h := fmod_two_eq_zero_iff n
  constructor <;>
    simp [is_even, decide_eq_true_eq, decide_eq_false_iff_not, h]

/-- Claim C10: at the zero edge cases, gcd 0 0 succeeds with 0 and
lcm a 0 and lcm 0 a succeed with 0 for every integer a. -/
theorem gcd_lcm_zero_edge :
    gcd 0 0 = Res.ok 0 ∧
    (∀ a : ℤ, lcm a 0 = Res.ok 0 ∧ lcm 0 a = Res.ok 0) := by
  refine ⟨by decide, fun a => ⟨?_, ?_⟩⟩ <;>
    simp [lcm, Int.lcm, Nat.lcm_zero_right, Nat.lcm_zero_left]

/-! ### Claim theorems: power, logarithm, modulo -/

/-- Claim C2 counterexample: the power tool applied to base 0 and
exponent minus 1 does not return a success value at all; the Python
exponentiation raises ZeroDivisionError, which escapes the tool as an
unhandled fault. -/
theorem power_zero_neg_exponent_raises :
    power 0 (-1) = PowResult.zeroDivisionError := by
  rw [power, if_pos ⟨rfl, by norm_num⟩]

/-- Claim C2 (amended): power never returns a domain error (it has no
error branch at all); it returns the zero-division fault exactly when
the base is 0 and the exponent is negative; for every nonzero base and
integral exponent it succeeds with the exact rational power; for every
non-negative base outside the fault case it succeeds with the real
power; and for a negative base with fractional exponent it succeeds
with the principal complex power rather than failing. -/
theorem power_behavior :
    (∀ b e : ℚ, power b e = PowResult.zeroDivisionError ↔ b = 0 ∧ e < 0) ∧
    (∀ b : ℚ, ∀ n : ℤ, b ≠ 0 →
      power b ((n : ℤ) : ℚ) = PowResult.ok (((b ^ n : ℚ) : ℝ))) ∧
    (∀ b e : ℚ, 0 ≤ b → ¬(b = 0 ∧ e < 0) →
      power b e = PowResult.ok ((b : ℝ) ^ (e : ℝ))) ∧
    (∀ b e : ℚ, b < 0 → e.den ≠ 1 →
      power b e = PowResult.okComplex ((b : ℂ) ^ (e : ℂ))) := by
  refine ⟨fun b e => ?_, fun b n hb => ?_, fun b e hb h => ?_, fun b e hb hd => ?_⟩
  · unfold power
    split_ifs with h1 h2
    · exact iff_of_true rfl h1
    · exact iff_of_false (by simp) h1
    · exact iff_of_false (by simp) h1
  · have h1 : ¬(b = 0 ∧ ((n : ℤ) : ℚ) < 0) := fun hc => hb hc.1
    have h2 : ¬(b < 0 ∧ ((n : ℤ) : ℚ).den ≠ 1) := by
      simp [Rat.den_intCast]
    rw [power, if_neg h1, if_neg h2]
    have hcast : ((((n : ℤ) : ℚ)) : ℝ) = ((n : ℤ) : ℝ) := by push_cast; ring
    rw [hcast, Real.rpow_intCast]
    norm_cast
  · have h2 : ¬(b < 0 ∧ e.den ≠ 1) := fun hc => absurd hb (not_le.mpr hc.1)
    rw [power, if_neg h, if_neg h2]
  · have h1 : ¬(b = 0 ∧ e < 0) := fun hc => absurd hc.1 (ne_of_lt hb)
    rw [power, if_neg h1, if_pos ⟨hb, hd⟩]

/-- Witness for the amended claim C2 at a concrete input. -/
theorem power_behavior_holds :
    power 2 (((-1 : ℤ) : ℤ) : ℚ) = PowResult.ok ((((2 : ℚ) ^ (-1 : ℤ) : ℚ)) : ℝ) :=
  power_behavior.2.1 2 (-1) (by norm_num)

/-- Claim C5: logarithm returns a domain error exactly when x ≤ 0, or
base ≤ 0, or base = 1; on every other input it succeeds with
log x / log base; the omitted base defaults to e, giving the natural
logarithm; and logarithm 8 2 is exactly 3. -/
theorem logarithm_spec :
    (∀ x base : ℝ,
      (logarithm x base).isDomainError = true ↔ x ≤ 0 ∨ base ≤ 0 ∨ base = 1) ∧
    (∀ x base : ℝ, 0 < x → 0 < base → base ≠ 1 →
      logarithm x base = Res.ok (Real.log x / Real.log base)) ∧
    (∀ x : ℝ, 0 < x → logarithm_default x = Res.ok (Real.log x)) ∧
    logarithm 8 2 = Res.ok 3 := by
  refine ⟨fun x base => ?_, fun x base hx hb hb1 => ?_, fun x hx => ?_, ?_⟩
  · unfold logarithm
    split_ifs with h1 h2
    · exact iff_of_true rfl (Or.inl h1)
    · exact iff_of_true rfl (Or.inr h2)
    · refine iff_of_false (by simp [Res.isDomainError]) ?_
      rintro (h | h | h)
      · exact h1 h
      · exact h2 (Or.inl h)
      · exact h2 (Or.inr h)
  · have h2 : ¬(base ≤ 0 ∨ base = 1) := by
      rintro (h | h)
      · exact absurd hb (not_lt.mpr h)
      · exact hb1 h
    rw [logarithm, if_neg (not_le.mpr hx), if_neg h2]
  · have h2 : ¬(Real.exp 1 ≤ 0 ∨ Real.exp 1 = 1) := by
      rintro (h | h)
      · exact absurd (Real.exp_pos 1) (not_lt.mpr h)
      · have := Real.log_exp 1
        rw [h, Real.log_one] at this
        norm_num at this
    rw [logarithm_default, logarithm, if_neg (not_le.mpr hx), if_neg h2,
      Real.log_exp, div_one]
  · have h2 : ¬((2 : ℝ) ≤ 0 ∨ (2 : ℝ) = 1) := by norm_num
    rw [logarithm, if_neg (by norm_num), if_neg h2]
    have h8 : (8 : ℝ) = 2 ^ (3 : ℕ) := by norm_num
    have hlog : Real.log 2 ≠ 0 := ne_of_gt (Real.log_pos (by norm_num))
    rw [h8, Real.log_pow]
    norm_num [mul_div_assoc, div_self hlog]

/-- Witness for claim C5 at a concrete input. -/
theorem logarithm_spec_holds :
    logarithm 9 3 = Res.ok (Real.log 9 / Real.log 3) :=
  logarithm_spec.2.1 9 3 (by norm_num) (by norm_num) (by norm_num)

/-- Claim C6: modulo returns a domain error exactly when the divisor is
0; for every nonzero divisor it succeeds with the floored-division
remainder a - b * floor (a / b); and that remainder lies in the
half-open interval at 0 on the side of b, so a nonzero remainder has
the sign of the divisor. -/
theorem modulo_spec :
    (∀ a b : ℚ, (modulo a b).isDomainError = true ↔ b = 0) ∧
    (∀ a b : ℚ, b ≠ 0 → modulo a b = Res.ok (a - b * ⌊a / b⌋)) ∧
    (∀ a b : ℚ, 0 < b → 0 ≤ a - b * ⌊a / b⌋ ∧ a - b * ⌊a / b⌋ < b) ∧
    (∀ a b : ℚ, b < 0 → b < a - b * ⌊a / b⌋ ∧ a - b * ⌊a / b⌋ ≤ 0) := by
  refine ⟨fun a b => ?_, fun a b h => ?_, fun a b hb => ?_, fun a b hb => ?_⟩
  · unfold modulo
    split_ifs with h <;> simp [Res.isDomainError, h]
  · rw [modulo, if_neg h]
  · have h1 : ((⌊a / b⌋ : ℚ)) ≤ a / b := Int.floor_le _
    have h2 : a / b < ⌊a / b⌋ + 1 := Int.lt_floor_add_one _
    have h3 : b * (a / b) = a := by field_simp
    constructor
    · nlinarith [mul_le_mul_of_nonneg_left h1 hb.le]
    · nlinarith [mul_lt_mul_of_pos_left h2 hb]
  · have h1 : ((⌊a / b⌋ : ℚ)) ≤ a / b := Int.floor_le _
    have h2 : a / b < ⌊a / b⌋ + 1 := Int.lt_floor_add_one _
    have h3 : b * (a / b) = a := by
      rw [mul_comm]
      exact div_mul_cancel₀ a (ne_of_lt hb)
    constructor
    · nlinarith [mul_lt_mul_of_neg_left h2 hb]
    · nlinarith [mul_le_mul_of_nonpos_left h1 hb.le]

/-- Witness for claim C6 at concrete inputs. -/
theorem modulo_spec_holds :
    modulo 7 3 = Res.ok ((7 : ℚ) - 3 * ((⌊(7 : ℚ) / 3⌋ : ℤ) : ℚ)) :=
  modulo_spec.2.1 7 3 (by norm_num)

/-! ### Trial-division lemmas for is_prime -/

lemma isqrtGo_sq_le (n : ℕ) : ∀ k, isqrtGo n k * isqrtGo n k ≤ n
  | 0 => by simp [isqrtGo]
  | k + 1 => by
    rw [isqrtGo]
    split_ifs with h
    · exact h
    · exact isqrtGo_sq_le n k

lemma lt_isqrtGo_succ_sq (n : ℕ) :
    ∀ k, n < (k + 1) * (k + 1) → n < (isqrtGo n k + 1) * (isqrtGo n k + 1)
  | 0, h => by simpa [isqrtGo] using h
  | k + 1, h => by
    rw [isqrtGo]
    split_ifs with hle
    · exact h
    · exact lt_isqrtGo_succ_sq n k (Nat.lt_of_not_le hle)

lemma isqrt_eq_sqrt (n : ℕ) : isqrt n = Nat.sqrt n := by
  have h1 : isqrt n * isqrt n ≤ n := isqrtGo_sq_le n n
  have h2 : n < (isqrt n + 1) * (isqrt n + 1) :=
    lt_isqrtGo_succ_sq n n (by nlinarith)
  have hle : isqrt n ≤ Nat.sqrt n := Nat.le_sqrt.mpr h1
  have hlt : Nat.sqrt n < isqrt n + 1 := Nat.sqrt_lt.mpr h2
  omega

lemma mem_pyRange_odd {b j : ℕ} :
    j ∈ pyRange 3 (b + 1) 2 ↔ 3 ≤ j ∧ j ≤ b ∧ j % 2 = 1 := by
  unfold pyRange
  rw [List.mem_range']
  constructor
  · rintro ⟨i, hi, rfl⟩
    omega
  · rintro ⟨h3, hb, hodd⟩
    exact ⟨(j - 3) / 2, by omega, by omega⟩

lemma oddTrial_eq_none_iff {m : ℕ} :
    oddTrial m = none ↔
      ∀ j, 3 ≤ j → j ≤ Nat.sqrt m → j % 2 = 1 → m % j ≠ 0 := by
  unfold oddTrial
  rw [isqrt_eq_sqrt, List.find?_eq_none]
  constructor
  · intro h j h3 hs hodd
    have := h j (mem_pyRange_odd.mpr ⟨h3, hs, hodd⟩)
    simpa using this
  · intro h x hx
    obtain ⟨h3, hs, hodd⟩ := mem_pyRange_odd.mp hx
    simpa using h x h3 hs hodd

lemma oddTrial_eq_some_facts {m i : ℕ} (h : oddTrial m = some i) :
    3 ≤ i ∧ i ≤ Nat.sqrt m ∧ i % 2 = 1 ∧ m % i = 0 := by
  unfold oddTrial at h
  rw [isqrt_eq_sqrt] at h
  have hmem := List.mem_of_find?_eq_some h
  have hp := List.find?_some h
  obtain ⟨h3, hs, hodd⟩ := mem_pyRange_odd.mp hmem
  exact ⟨h3, hs, hodd, by simpa using hp⟩

lemma prime_iff_no_divisor {m : ℕ} (hm : 2 ≤ m) :
    Nat.Prime m ↔ ¬∃ k : ℕ, 2 ≤ k ∧ k < m ∧ k ∣ m := by
  rw [Nat.prime_def_lt']
  constructor
  · rintro ⟨-, h⟩ ⟨k, hk2, hkm, hkd⟩
    exact h k hk2 hkm hkd
  · intro h
    exact ⟨hm, fun k hk2 hkm hkd => h ⟨k, hk2, hkm, hkd⟩⟩

lemma prime_of_oddTrial_none {m : ℕ} (hm3 : 3 ≤ m) (hodd : ¬2 ∣ m)
    (h : oddTrial m = none) : Nat.Prime m := by
  rw [Nat.prime_def_le_sqrt]
  refine ⟨by omega, fun k hk2 hks hkd => ?_⟩
  rcases Nat.even_or_odd k with he | ho
  · obtain ⟨r, rfl⟩ := he
    exact hodd (dvd_trans ⟨r, by ring⟩ hkd)
  · obtain ⟨r, hr⟩ := ho
    have h3 : 3 ≤ k := by omega
    have hk1 : k % 2 = 1 := by omega
    have hne := (oddTrial_eq_none_iff.mp h) k h3 hks hk1
    exact hne (Nat.mod_eq_zero_of_dvd hkd)

lemma not_prime_of_oddTrial_some {m i : ℕ} (hm : 2 ≤ m)
    (h : oddTrial m = some i) : ¬Nat.Prime m := by
  obtain ⟨h3, hs, -, hmod⟩ := oddTrial_eq_some_facts h
  have hdvd : i ∣ m := Nat.dvd_of_mod_eq_zero hmod
  have him : i < m := lt_of_le_of_lt hs (Nat.sqrt_lt_self (by omega))
  rw [prime_iff_no_divisor hm]
  intro hno
  exact hno ⟨i, by omega, him, hdvd⟩

lemma verdict_iff_prime {m : ℕ} (hm : 2 ≤ m) :
    (is_prime (m : ℤ)).verdict = true ↔ Nat.Prime m := by
  have hnlt : ¬((m : ℤ) < 2) := by exact_mod_cast not_lt.mpr hm
  by_cases hm2 : m = 2
  · subst hm2
    rw [is_prime, if_neg hnlt, if_pos (show ((2 : ℕ) : ℤ) = 2 by norm_num)]
    exact iff_of_true rfl Nat.prime_two
  · have hne2 : ¬((m : ℤ) = 2) := by exact_mod_cast hm2
    rw [is_prime, if_neg hnlt, if_neg hne2]
    by_cases heven : Int.fmod (m : ℤ) 2 = 0
    · rw [if_pos heven]
      have h2m : 2 ∣ m := by
        have := (fmod_two_eq_zero_iff (m : ℤ)).mp heven
        exact_mod_cast this
      refine iff_of_false (by simp [PrimeResult.verdict]) (fun hp => ?_)
      rcases (Nat.Prime.eq_one_or_self_of_dvd hp 2 h2m) with h | h <;> omega
    · rw [if_neg heven]
      have hmt : ((m : ℤ)).toNat = m := Int.toNat_natCast m
      have hodd : ¬2 ∣ m := fun hd => by
        refine heven ((fmod_two_eq_zero_iff (m : ℤ)).mpr ?_)
        exact_mod_cast hd
      rw [hmt]
      cases ht : oddTrial m with
      | some i =>
        exact iff_of_false (by simp [PrimeResult.verdict])
          (not_prime_of_oddTrial_some hm ht)
      | none =>
        exact iff_of_true rfl (prime_of_oddTrial_none (by omega) hodd ht)

/-- Claim C1: the is_prime tool implements trial division (even test
first, then odd candidates from 3 through the integer square root of
n), and for every n at least 2 its prime verdict agrees with the
reference definition of primality: n has no divisor d with
2 ≤ d < n. -/
theorem is_prime_correct (n : ℤ) (h : 2 ≤ n) :
    (is_prime n).verdict = true ↔ ¬∃ d : ℤ, 2 ≤ d ∧ d < n ∧ d ∣ n := by
  lift n to ℕ using (by omega : (0 : ℤ) ≤ n) with m
  have hm : 2 ≤ m := by exact_mod_cast h
  have hdiv : (∃ d : ℤ, 2 ≤ d ∧ d < (m : ℤ) ∧ d ∣ (m : ℤ)) ↔
      ∃ k : ℕ, 2 ≤ k ∧ k < m ∧ k ∣ m := by
    constructor
    · rintro ⟨d, hd2, hdm, hdd⟩
      lift d to ℕ using (by omega : (0 : ℤ) ≤ d) with k
      exact ⟨k, by exact_mod_cast hd2, by exact_mod_cast hdm, by exact_mod_cast hdd⟩
    · rintro ⟨k, hk2, hkm, hkd⟩
      exact ⟨(k : ℤ), by exact_mod_cast hk2, by exact_mod_cast hkm, by exact_mod_cast hkd⟩
  rw [hdiv, ← prime_iff_no_divisor hm]
  exact verdict_iff_prime hm

/-- Witness for claim C1 at a concrete input. -/
theorem is_prime_correct_holds :
    (2 : ℤ) ≤ 17 ∧
      ((is_prime 17).verdict = true ↔ ¬∃ d : ℤ, 2 ≤ d ∧ d < 17 ∧ d ∣ 17) :=
  ⟨by norm_num, is_prime_correct 17 (by norm_num)⟩

/-- Claim C4 counterexample: is_prime applied to 18 takes the even
branch and returns the bare not-prime report; it does not return the
divisor-carrying report with witness 2 or 3 (nor any witness at
all). -/
theorem is_prime_18_no_witness :
    is_prime 18 = PrimeResult.notPrime 18 ∧
    is_prime 18 ≠ PrimeResult.notPrimeDivisible 18 2 ∧
    is_prime 18 ≠ PrimeResult.notPrimeDivisible 18 3 := by
  refine ⟨by decide, by decide, by decide⟩

/-- Claim C4 (amended): is_prime applied to 18 reports composite
(verdict false), but through the even branch, which names no witness
divisor. -/
theorem is_prime_18_composite :
    (is_prime 18).verdict = false ∧ is_prime 18 = PrimeResult.notPrime 18 := by
  refine ⟨by decide, by decide⟩

end McpMathServer
